import Mathlib

/-!
Verification development for the `btc_buyer` repository: a shallow embedding
of the decision engine of `strategy_bitfinex_fng_ma_buyer.py` and
`strategy_coinex_fng_ma_buyer.py`, together with theorems settling the
specification claims about it.

Modelling conventions:
* Python floats that hold prices, amounts and thresholds are embedded as `ℚ`.
* An environment variable read through `float(...)` is embedded as `EnvVal`:
  unset, set-but-unparsable (the `float` call raises `ValueError`), or a value.
* Network / exchange I/O results are inputs to the pipeline, embedded as
  `Except String _` (error = the fetch raised after exhausting its retries).
* A Python exception escaping `compute_buy_decision` is `Except PyErr _`;
  the CoinEx variant returns on every path, so it is a total function.
-/

namespace BtcBuyer

/-- An environment-variable slot as consumed through `float(...)`:
`unset` (absent or empty string, the code falls back to a default),
`invalid` (`float()` raises `ValueError`), or a parsed value. -/
inductive EnvVal where
  | unset
  | invalid
  | val (q : ℚ)
deriving DecidableEq

/-- `float(x) if x else default` / `float(os.environ.get(k, default))`:
unset falls back to the default, an unparsable string raises `ValueError`
(modelled as `.error ()`), otherwise the parsed value. -/
def envFloat (e : EnvVal) (default : ℚ) : Except Unit ℚ :=
  match e with
  | .unset => .ok default
  | .invalid => .error ()
  | .val q => .ok q

/-- `buy_fng = fng_value is not None and fng_value <= fng_threshold`
(both variants, lines 214 / 227). -/
def buyFng (fng : Option ℤ) (thr : ℚ) : Bool :=
  match fng with
  | none => false
  | some v => decide ((v : ℚ) ≤ thr)

/-- `buy_ma = current_price <= (1 - ma_threshold) * latest_ma`
(both variants, lines 215 / 228). -/
def buyMa (price thr ma : ℚ) : Bool :=
  decide (price ≤ (1 - thr) * ma)

/-- `overlap = buy_fng and buy_ma` (both variants, lines 216 / 229). -/
def overlapSignal (bf bm : Bool) : Bool := bf && bm

/-- The FNG fetch is wrapped in `try/except`: on success the parsed integer,
on any failure `fng_value` stays `None` (both variants, lines 171-180 / 179-188). -/
def fngValueOf (r : Except String ℤ) : Option ℤ :=
  match r with
  | .ok v => some v
  | .error _ => none

/-- Last entry of `closes.rolling(window=w).mean()` on a series of length
`closes.length`: defined (non-NaN) exactly when `1 ≤ w ≤ length`, and then it
is the mean of the final `w` entries. -/
def rollingMeanLast (closes : List ℚ) (w : ℕ) : Option ℚ :=
  if 1 ≤ w ∧ w ≤ closes.length then
    some ((closes.drop (closes.length - w)).sum / (w : ℚ))
  else
    none

/-- The indicator stage of `compute_buy_decision` (lines 183-195 / 192-205):
raise if the dataframe is empty, take `effective_ma_period = min(ma_period,
len(btc_df))`, compute the rolling mean, raise if the last value is NaN.
Any raise is caught and becomes the no-purchase-history outcome, so the
error type is `Unit`. Returns `(effective_ma_period, latest_ma)`. -/
def indicators (closes : List ℚ) (maPeriod : ℕ) : Except Unit (ℕ × ℚ) :=
  if closes.isEmpty then .error ()
  else
    match rollingMeanLast closes (min maPeriod closes.length) with
    | none => .error ()
    | some m => .ok (min maPeriod closes.length, m)

/-- Which buy tier fired. -/
inductive Reason where
  | overlap
  | fngOnly
  | maOnly
deriving DecidableEq

/-- The single outcome record a cycle returns (the string
`compute_buy_decision` returns, abstracted to its constructor). -/
inductive Outcome where
  | noPurchaseHistory
  | noPurchasePrice
  | noPurchaseThresholds
  | noPurchaseMissingCreds
  | noPurchaseConditions
  | noPurchaseInvalidAmount
  | bought (amount : ℚ) (reason : Reason) (orderId : ℕ)
  | failedBuy (amount : ℚ) (reason : Reason)
deriving DecidableEq

/-- A Python exception escaping `compute_buy_decision` uncaught. -/
inductive PyErr where
  | nameError (ident : String)
  | valueError
deriving DecidableEq

/-- The signed CoinEx market-buy request of `coinex_buy_order`
(lines 122-157). The wire request - JSON body, alphabetically sorted query
string and its HMAC-SHA256 signature, headers - is a deterministic function
of these fields (HMAC is a pure function of key and message), so equality of
`OrderRequest` values implies equality of the transmitted signed requests. -/
structure OrderRequest where
  amount : ℚ
  clientId : String
  tonce : ℕ
  accessId : String
  sigSecret : String
deriving DecidableEq

/-- `f"strategy6_{uuid.uuid4().hex[:8]}"` where `uuids k` is the hex digest of
the `k`-th `uuid.uuid4()` draw of the submission loop: attempt `k` generates
its identifier from the fresh draw `k` made inside the loop body
(`bitfinex_buy_order` line 132, `coinex_buy_order` line 134). -/
def clientIdOf (uuids : ℕ → String) (k : ℕ) : String :=
  "strategy6_" ++ (uuids k).take 8

/-- The request attempt `k` of the CoinEx submission loop signs and sends. -/
def coinexAttemptRequest (key secret : String) (amount : ℚ) (tonce : ℕ)
    (uuids : ℕ → String) (k : ℕ) : OrderRequest :=
  ⟨amount, clientIdOf uuids k, tonce, key, secret⟩

/-- One cycle's environment and I/O results, fed to `compute_buy_decision`.
`orderResult` is the net result of the order-submission retry loop
(order id on success). `uuids` is the stream of `uuid.uuid4().hex` draws. -/
structure Inputs where
  fngFetch : Except String ℤ
  histFetch : Except String (List ℚ)
  priceFetch : Except String ℚ
  fngThresholdEnv : EnvVal
  maThresholdEnv : EnvVal
  buyOverlapEnv : EnvVal
  buyFngEnv : EnvVal
  buyMaEnv : EnvVal
  maPeriod : ℕ
  orderResult : Except String ℕ
  tonce : ℕ
  uuids : ℕ → String
  envCoinexApiKey : String
  envCoinexApiSecret : String

/-- The fallback literal for `api_key` in the CoinEx variant (line 233):
the `os.environ.get('COINEX_API_KEY')` read is commented out. -/
def coinexHardKey : String := "40EC2CF286374A0AB0E2096230AF300C"

/-- The fallback literal for `api_secret` in the CoinEx variant (line 234). -/
def coinexHardSecret : String := "EC7251EE5C287BFCF642DC3597542084E9176EAC2903D97B"

/-- The bought / failed-to-buy outcome of the order-submission stage. -/
def orderOutcome (a : ℚ) (r : Reason) (res : Except String ℕ) : Outcome :=
  match res with
  | .ok oid => .bought a r oid
  | .error _ => .failedBuy a r

/-- Tier resolution of the CoinEx variant (lines 244-259): one branch by
priority overlap, then FNG, then MA, each with its fallback default amount;
`.error ()` is the `ValueError` caught as the invalid-amount outcome;
`.ok none` is the conditions-not-met branch. -/
def coinexTier (ov bf bm : Bool) (ovE fE mE : EnvVal) :
    Except Unit (Option (ℚ × Reason)) :=
  if ov then (envFloat ovE (2/10000)).map (fun a => some (a, .overlap))
  else if bf then (envFloat fE (1/10000)).map (fun a => some (a, .fngOnly))
  else if bm then (envFloat mE (5/10000)).map (fun a => some (a, .maOnly))
  else .ok none

/-- A CoinEx cycle: the outcome record plus the signed order request sent to
the exchange, when the order stage was reached. -/
structure CoinexRun where
  outcome : Outcome
  request : Option OrderRequest
deriving DecidableEq

/-- `compute_buy_decision` of the CoinEx variant after the sentiment stage
(lines 190-275): history and indicators, price, thresholds, signals,
hardcoded credentials and their emptiness guard, tier resolution with
positivity check, then order submission. -/
def coinexAfterFng (fng : Option ℤ) (i : Inputs) : CoinexRun :=
  match i.histFetch with
  | .error _ => ⟨.noPurchaseHistory, none⟩
  | .ok closes =>
    match indicators closes i.maPeriod with
    | .error () => ⟨.noPurchaseHistory, none⟩
    | .ok (_, ma) =>
      match i.priceFetch with
      | .error _ => ⟨.noPurchasePrice, none⟩
      | .ok price =>
        match envFloat i.fngThresholdEnv 25, envFloat i.maThresholdEnv (1/10) with
        | .error (), _ => ⟨.noPurchaseThresholds, none⟩
        | .ok _, .error () => ⟨.noPurchaseThresholds, none⟩
        | .ok ft, .ok mt =>
          let bf := buyFng fng ft
          let bm := buyMa price mt ma
          if coinexHardKey = "" ∨ coinexHardSecret = "" then
            ⟨.noPurchaseMissingCreds, none⟩
          else
            match coinexTier (overlapSignal bf bm) bf bm
                i.buyOverlapEnv i.buyFngEnv i.buyMaEnv with
            | .error () => ⟨.noPurchaseInvalidAmount, none⟩
            | .ok none => ⟨.noPurchaseConditions, none⟩
            | .ok (some (a, r)) =>
              if a ≤ 0 then ⟨.noPurchaseInvalidAmount, none⟩
              else
                ⟨orderOutcome a r i.orderResult,
                 some (coinexAttemptRequest coinexHardKey coinexHardSecret
                        a i.tonce i.uuids 0)⟩

/-- `compute_buy_decision` of the CoinEx variant (lines 173-275): the
sentiment fetch degrades to `None` on failure, then the rest of the pipeline.
Total: every path of the Python function returns an outcome string. -/
def coinexCompute (i : Inputs) : CoinexRun :=
  coinexAfterFng (fngValueOf i.fngFetch) i

/-- `compute_buy_decision` of the Bitfinex variant after the sentiment stage
(lines 182-254). The tier block (lines 225-243) catches only `ValueError`;
the overlap branch evaluates the undefined name `buy_overlap_order_amount`
(line 227) and the MA branch assigns `btc_order_amount` but then tests the
unbound `btc_amount` (lines 233, 239), so those branches raise `NameError`,
which escapes the function. -/
def bitfinexAfterFng (fng : Option ℤ) (i : Inputs) : Except PyErr Outcome :=
  match i.histFetch with
  | .error _ => .ok .noPurchaseHistory
  | .ok closes =>
    match indicators closes i.maPeriod with
    | .error () => .ok .noPurchaseHistory
    | .ok (_, ma) =>
      match i.priceFetch with
      | .error _ => .ok .noPurchasePrice
      | .ok price =>
        match envFloat i.fngThresholdEnv 25, envFloat i.maThresholdEnv (1/10) with
        | .error (), _ => .ok .noPurchaseThresholds
        | .ok _, .error () => .ok .noPurchaseThresholds
        | .ok ft, .ok mt =>
          let bf := buyFng fng ft
          let bm := buyMa price mt ma
          if overlapSignal bf bm then
            .error (.nameError "buy_overlap_order_amount")
          else if bf then
            match envFloat i.buyFngEnv (1/10000) with
            | .error () => .ok .noPurchaseInvalidAmount
            | .ok a =>
              if a ≤ 0 then .ok .noPurchaseInvalidAmount
              else .ok (orderOutcome a .fngOnly i.orderResult)
          else if bm then
            match envFloat i.buyMaEnv (5/10000) with
            | .error () => .ok .noPurchaseInvalidAmount
            | .ok _ => .error (.nameError "btc_amount")
          else .ok .noPurchaseConditions

/-- `compute_buy_decision` of the Bitfinex variant (lines 166-254). -/
def bitfinexCompute (i : Inputs) : Except PyErr Outcome :=
  bitfinexAfterFng (fngValueOf i.fngFetch) i

/-- `run_strategy` (lines 256-263 / 277-284): the outcome record it logs.
When `compute_buy_decision` raises, the generic handler logs an
unexpected-error line and no outcome record is produced. -/
def runStrategyEmits (r : Except PyErr Outcome) : Option Outcome :=
  match r with
  | .ok o => some o
  | .error _ => none

/-- The shared retry loop (`for attempt in range(retries): try ... except`)
of `get_*_price`, `get_*_historical_data` and `*_buy_order`, over the list of
per-attempt outcomes: return the first successful attempt; on failure sleep
and try the next, unless this was the last attempt, in which case re-raise
that attempt's error. -/
def retryRun {E A : Type} (first : Except E A) (rest : List (Except E A)) :
    Except E A :=
  match first, rest with
  | .ok a, _ => .ok a
  | .error e, [] => .error e
  | .error _, b :: bs => retryRun b bs

/-- The retry loop over the whole attempt list; `range(0)` never runs the
body and the Python function falls off the end returning `None` (`none`). -/
def retryRunList {E A : Type} (attempts : List (Except E A)) :
    Option (Except E A) :=
  match attempts with
  | [] => none
  | a :: rest => some (retryRun a rest)

/-- The calendar day of a POSIX-seconds timestamp. -/
def dayOf (ts : ℤ) : ℤ := Int.fdiv ts 86400

/-- Ascending order on `(timestamp, close)` points, comparing timestamps. -/
def byTs (a b : ℤ × ℚ) : Prop := a.1 ≤ b.1

instance : DecidableRel byTs := fun a b => inferInstanceAs (Decidable (a.1 ≤ b.1))

instance : IsTotal (ℤ × ℚ) byTs := ⟨fun a b => le_total a.1 b.1⟩

instance : IsTrans (ℤ × ℚ) byTs := ⟨fun _ _ _ => le_trans⟩

/-- The record-processing pipeline of one successful history fetch
(Bitfinex lines 94-101, CoinEx lines 92-99): each candle's millisecond
timestamp becomes `int(ts / 1000)` seconds (truncating division), and the
frame is sorted ascending by timestamp with `sort_index()` (embedded as a
sort by `byTs`). The input is the list of `(created_at ms, close)` pairs in
payload order. -/
def processKlines (payload : List (ℤ × ℚ)) : List (ℤ × ℚ) :=
  List.insertionSort byTs (payload.map (fun c => (Int.tdiv c.1 1000, c.2)))

/-- One attempt of the history fetch after a 2xx response: a payload with
zero records raises (`"No historical data returned"`), which the retry loop
treats as an attempt failure; otherwise the processed series is returned. -/
def fetchAttemptHist (payload : List (ℤ × ℚ)) :
    Except String (List (ℤ × ℚ)) :=
  if payload.isEmpty then .error "No historical data returned"
  else .ok (processKlines payload)

/-- A series holds at most one point per calendar day. -/
def dedupedByDay (s : List (ℤ × ℚ)) : Prop :=
  s.Pairwise (fun a b => dayOf a.1 ≠ dayOf b.1)

instance (s : List (ℤ × ℚ)) : Decidable (dedupedByDay s) := by
  unfold dedupedByDay; infer_instance

/-- `df.index.max()` over the cached frame's POSIX-seconds timestamps. -/
def latestTs (s : List (ℤ × ℚ)) : ℤ :=
  (s.map Prod.fst).foldr max 0

/-- The cache-validity test (Bitfinex line 74, CoinEx line 71):
`len(df) >= days and (pd.Timestamp.now() - latest_date).days < 1`, where
`Timedelta.days` floors (`Int.fdiv`). Times are POSIX seconds. -/
def cacheValid (s : List (ℤ × ℚ)) (days : ℕ) (now : ℤ) : Bool :=
  decide ((days : ℕ) ≤ s.length) && decide (Int.fdiv (now - latestTs s) 86400 < 1)

/-- What one call of `get_*_historical_data` did: the series it returned, how
many network fetches it made, and the final content of the cache file. -/
structure CacheResult where
  series : List (ℤ × ℚ)
  fetchCalls : ℕ
  persisted : Option (List (ℤ × ℚ))
deriving DecidableEq

/-- `get_bitfinex_historical_data` / `get_coinex_historical_data`
(lines 65-121 / 61-120) at the cache level. `cache` is the parsed content of
the cache file (`none` = absent or unreadable); `fetched` is the net result
of the fetch retry loop (already processed by `processKlines`); `persistOk`
is whether `to_csv` succeeds. A valid cache is returned as-is with no fetch;
otherwise the file is removed, the full window refetched, and the result
persisted, a persistence failure being logged and ignored. -/
def getHistoricalData (cache : Option (List (ℤ × ℚ))) (days : ℕ) (now : ℤ)
    (fetched : Except String (List (ℤ × ℚ))) (persistOk : Bool) :
    Except String CacheResult :=
  match cache with
  | some s =>
    if cacheValid s days now then .ok ⟨s, 0, some s⟩
    else
      match fetched with
      | .error e => .error e
      | .ok f => .ok ⟨f, 1, if persistOk then some f else none⟩
  | none =>
    match fetched with
    | .error e => .error e
    | .ok f => .ok ⟨f, 1, if persistOk then some f else none⟩

/-- A cycle in which both signals fire: FNG 10 against the default threshold
25, price 50 against moving average 100 with the default 10% threshold, all
tier amounts unset, the order accepted with id 1. -/
def overlapCycle : Inputs where
  fngFetch := .ok 10
  histFetch := .ok [100]
  priceFetch := .ok 50
  fngThresholdEnv := .unset
  maThresholdEnv := .unset
  buyOverlapEnv := .unset
  buyFngEnv := .unset
  buyMaEnv := .unset
  maPeriod := 1
  orderResult := .ok 1
  tonce := 7
  uuids := fun _ => "deadbeefcafe"
  envCoinexApiKey := "configured-key"
  envCoinexApiSecret := "configured-secret"

/-- A cycle in which only the MA signal fires: the sentiment fetch failed,
price 50 against moving average 100, all tier amounts unset. -/
def maOnlyCycle : Inputs where
  fngFetch := .error "fng service down"
  histFetch := .ok [100]
  priceFetch := .ok 50
  fngThresholdEnv := .unset
  maThresholdEnv := .unset
  buyOverlapEnv := .unset
  buyFngEnv := .unset
  buyMaEnv := .unset
  maPeriod := 1
  orderResult := .ok 1
  tonce := 7
  uuids := fun _ => "deadbeefcafe"
  envCoinexApiKey := "configured-key"
  envCoinexApiSecret := "configured-secret"

/-- The `uuid4` draw stream of a concrete two-attempt submission. -/
def twoAttemptDraws : ℕ → String :=
  fun n => if n = 0 then "11111111x" else "22222222y"

end BtcBuyer

namespace BtcBuyer

/-- C1: in the decision stage exactly one tier is resolved by the priority
order overlap > FNG-only > MA-only > none, with the configured amount and the
documented defaults (overlap 0.0002, FNG-only 0.0001, MA-only 0.0005), never
the sum of two tiers. The CoinEx variant does resolve tiers this way, but the
Bitfinex variant's overlap branch evaluates the undefined name
`buy_overlap_order_amount` and raises `NameError` instead of buying the
overlap-tier amount, so the claim fails on the code there. -/
theorem C1_overlap_tier :
    bitfinexCompute overlapCycle = .error (.nameError "buy_overlap_order_amount")
    ∧ (coinexCompute overlapCycle).outcome = .bought (2/10000) .overlap 1
    ∧ (∀ qov qf qm : ℚ, coinexTier true true true (.val qov) (.val qf) (.val qm)
        = .ok (some (qov, .overlap)))
    ∧ (∀ qf qm : ℚ, coinexTier false true false .unset (.val qf) (.val qm)
        = .ok (some (qf, .fngOnly)))
    ∧ (∀ qm : ℚ, coinexTier false false true .unset .unset (.val qm)
        = .ok (some (qm, .maOnly)))
    ∧ coinexTier false false false .unset .unset .unset = .ok none
    ∧ coinexTier true true true .unset .unset .unset = .ok (some (2/10000, .overlap))
    ∧ coinexTier false true false .unset .unset .unset = .ok (some (1/10000, .fngOnly))
    ∧ coinexTier false false true .unset .unset .unset = .ok (some (5/10000, .maOnly)) := by
  refine ⟨?_, ?_, ?_, ?_, ?_, rfl, rfl, rfl, rfl⟩
  · norm_num [bitfinexCompute, bitfinexAfterFng, overlapCycle, fngValueOf,
      indicators, rollingMeanLast, buyFng, buyMa, overlapSignal, envFloat]
  · have hk : ¬(coinexHardKey = "" ∨ coinexHardSecret = "") := by decide
    norm_num [coinexCompute, coinexAfterFng, overlapCycle, fngValueOf,
      indicators, rollingMeanLast, buyFng, buyMa, overlapSignal, coinexTier,
      envFloat, orderOutcome, hk, Except.map]
  · intro qov qf qm; rfl
  · intro qf qm; rfl
  · intro qm; rfl

/-- C2: `buy_fng` holds iff the FNG value is present and at most the
threshold, `buy_ma` holds iff the price is at most `(1 - ma_threshold)`
times the moving average, `overlap` is their conjunction, and the boundary
case fires: price 90 against MA 100 at threshold 0.10 buys, price 91 does
not. -/
theorem C2_signal_definitions :
    (∀ (v : ℤ) (t : ℚ), buyFng (some v) t = true ↔ (v : ℚ) ≤ t)
    ∧ (∀ t : ℚ, buyFng none t = false)
    ∧ (∀ (fng : Option ℤ) (t : ℚ),
        buyFng fng t = true ↔ ∃ v, fng = some v ∧ (v : ℚ) ≤ t)
    ∧ (∀ p t m : ℚ, buyMa p t m = true ↔ p ≤ (1 - t) * m)
    ∧ (∀ bf bm : Bool, overlapSignal bf bm = true ↔ bf = true ∧ bm = true)
    ∧ buyMa 90 (1/10) 100 = true
    ∧ buyMa 91 (1/10) 100 = false := by
  refine ⟨?_, ?_, ?_, ?_, ?_, by norm_num [buyMa], by norm_num [buyMa]⟩
  · intro v t; simp [buyFng]
  · intro t; rfl
  · intro fng t
    cases fng with
    | none => simp [buyFng]
    | some v => simp [buyFng]
  · intro p t m; simp [buyMa]
  · intro bf bm; simp [overlapSignal]

/-- C3: on a non-empty series the indicator stage uses
`effective_window = min(configured_window, series.length)` and its moving
average is the arithmetic mean of the most recent `effective_window` closes;
on an empty series it fails, and the cycle ends in the no-purchase-history
outcome in both variants. -/
theorem C3_effective_window (closes : List ℚ) (w : ℕ)
    (h1 : closes ≠ []) (h2 : 1 ≤ w) :
    indicators closes w =
      .ok (min w closes.length,
        (closes.reverse.take (min w closes.length)).sum
          / ((min w closes.length : ℕ) : ℚ))
    ∧ (∀ w' : ℕ, indicators [] w' = .error ())
    ∧ (∀ i : Inputs, i.histFetch = .ok [] →
        (coinexCompute i).outcome = .noPurchaseHistory
        ∧ bitfinexCompute i = .ok .noPurchaseHistory) := by
  refine ⟨?_, fun w' => rfl, fun i hi => ?_⟩
  · have hlen : 1 ≤ closes.length := List.length_pos.mpr h1
    have he1 : 1 ≤ min w closes.length := le_min h2 hlen
    have he2 : min w closes.length ≤ closes.length := min_le_right _ _
    have hne : closes.isEmpty = false := by
      cases closes with
      | nil => exact absurd rfl h1
      | cons a l => rfl
    have hdrop : closes.drop (closes.length - min w closes.length)
        = (closes.reverse.take (min w closes.length)).reverse := by
      have hr : closes.drop (closes.length - min w closes.length)
          = closes.rtake (min w closes.length) := rfl
      rw [hr, List.rtake_eq_reverse_take_reverse]
    simp [indicators, rollingMeanLast, hne, he1, he2, hdrop, List.sum_reverse]
  · constructor <;>
      simp [coinexCompute, coinexAfterFng, bitfinexCompute, bitfinexAfterFng,
        hi, indicators]

/-- Witness for C3 at the concrete series `[100, 200, 300]` with configured
window 2. -/
theorem C3_effective_window_witness :
    indicators [(100 : ℚ), 200, 300] 2 =
      .ok (min 2 ([(100 : ℚ), 200, 300]).length,
        (([(100 : ℚ), 200, 300]).reverse.take (min 2 ([(100 : ℚ), 200, 300]).length)).sum
          / ((min 2 ([(100 : ℚ), 200, 300]).length : ℕ) : ℚ)) :=
  (C3_effective_window [100, 200, 300] 2 (by simp) (by norm_num)).1

/-- C4: the persisted series is reused with no fetch iff it has at least
`window_days` points and its newest point is within one day of now;
otherwise it is discarded, the full window refetched and the result
persisted, a persistence failure being ignored rather than failing the
call. -/
theorem C4_cache_policy (cache : Option (List (ℤ × ℚ))) (days : ℕ) (now : ℤ)
    (fetched : Except String (List (ℤ × ℚ))) (persistOk : Bool) :
    (∀ s, cacheValid s days now = true ↔
        days ≤ s.length ∧ Int.fdiv (now - latestTs s) 86400 < 1)
    ∧ (∀ s, cache = some s → cacheValid s days now = true →
        getHistoricalData cache days now fetched persistOk = .ok ⟨s, 0, some s⟩)
    ∧ (∀ s f, cache = some s → cacheValid s days now = false → fetched = .ok f →
        getHistoricalData cache days now fetched persistOk
          = .ok ⟨f, 1, if persistOk then some f else none⟩)
    ∧ (∀ f, cache = none → fetched = .ok f →
        getHistoricalData cache days now fetched persistOk
          = .ok ⟨f, 1, if persistOk then some f else none⟩)
    ∧ (∀ r, getHistoricalData cache days now fetched persistOk = .ok r →
        (r.fetchCalls = 0 ↔ ∃ s, cache = some s ∧ cacheValid s days now = true)) := by
  refine ⟨?_, ?_, ?_, ?_, ?_⟩
  · intro s; simp [cacheValid]
  · intro s hs hv; subst hs; simp [getHistoricalData, hv]
  · intro s f hs hv hf; subst hs; subst hf; simp [getHistoricalData, hv]
  · intro f hc hf; subst hc; subst hf; simp [getHistoricalData]
  · intro r hr
    cases cache with
    | none =>
      cases fetched with
      | error e => exact absurd hr (by simp [getHistoricalData])
      | ok f =>
        simp only [getHistoricalData, Except.ok.injEq] at hr
        subst hr
        simp
    | some s =>
      by_cases hv : cacheValid s days now = true
      · simp only [getHistoricalData, hv, if_true, Except.ok.injEq] at hr
        subst hr
        simp [hv]
      · cases fetched with
        | error e => exact absurd hr (by simp [getHistoricalData, hv])
        | ok f =>
          simp only [getHistoricalData, hv, if_false, Bool.false_eq_true,
            Except.ok.injEq] at hr
          subst hr
          simp [hv]

/-- Witness for C4: a fresh enough one-point cache is reused with zero
fetches; a short cache triggers one fetch, and a failed persist of the
fetched series is ignored. -/
theorem C4_cache_policy_witness :
    getHistoricalData (some [((0 : ℤ), (100 : ℚ))]) 1 50000 (.error "upstream") true
      = .ok ⟨[((0 : ℤ), (100 : ℚ))], 0, some [((0 : ℤ), (100 : ℚ))]⟩
    ∧ getHistoricalData (some [((0 : ℤ), (100 : ℚ))]) 2 50000
        (.ok [((86400 : ℤ), (7 : ℚ))]) false
      = .ok ⟨[((86400 : ℤ), (7 : ℚ))], 1, none⟩ := by
  constructor
  · exact (C4_cache_policy (some [((0 : ℤ), (100 : ℚ))]) 1 50000
      (.error "upstream") true).2.1 _ rfl (by decide)
  · have h := (C4_cache_policy (some [((0 : ℤ), (100 : ℚ))]) 2 50000
      (.ok [((86400 : ℤ), (7 : ℚ))]) false).2.2.1 [((0 : ℤ), (100 : ℚ))]
      [((86400 : ℤ), (7 : ℚ))] rfl (by decide) rfl
    simpa using h

/-- A successful attempt returns immediately, whatever attempts remain. -/
theorem retryRun_ok {E A : Type} (a : A) (rest : List (Except E A)) :
    retryRun (.ok a) rest = .ok a := by
  cases rest <;> rfl

/-- A failed attempt with attempts remaining moves on to the next attempt. -/
theorem retryRun_error_cons {E A : Type} (e : E) (b : Except E A)
    (bs : List (Except E A)) : retryRun (.error e) (b :: bs) = retryRun b bs :=
  rfl

/-- Skipping a block of failing attempts, the loop returns the first
success. -/
theorem retryRun_skip_errors {E A : Type} (a : A) (post : List (Except E A)) :
    ∀ (pre : List (Except E A)) (e0 : E),
      (∀ x ∈ pre, ∃ e, x = .error e) →
      retryRun (.error e0) (pre ++ .ok a :: post) = .ok a
  | [], e0, _ => by
      rw [List.nil_append, retryRun_error_cons, retryRun_ok]
  | x :: xs, e0, h => by
      obtain ⟨e, rfl⟩ := h x (List.mem_cons_self x xs)
      rw [List.cons_append, retryRun_error_cons]
      exact retryRun_skip_errors a post xs e fun y hy =>
        h y (List.mem_cons_of_mem _ hy)

/-- When every attempt fails, the loop propagates the last error. -/
theorem retryRun_all_errors {E A : Type} (e : E) :
    ∀ (es : List E) (e0 : E),
      retryRun (A := A) (.error e0) (es.map .error ++ [.error e]) = .error e
  | [], _ => by rw [List.map_nil, List.nil_append]; rfl
  | e1 :: tl, e0 => by
      rw [List.map_cons, List.cons_append, retryRun_error_cons]
      exact retryRun_all_errors e tl e1

/-- The CoinEx pipeline reports a bought outcome only when the
order-submission result was a success carrying that order id. -/
theorem coinex_bought_imp_order_ok (i : Inputs) (a : ℚ) (r : Reason)
    (oid : ℕ) :
    (coinexCompute i).outcome = .bought a r oid → i.orderResult = .ok oid := by
  intro h
  simp only [coinexCompute, coinexAfterFng] at h
  repeat' split at h
  all_goals simp_all [orderOutcome]
  · split at h <;> simp_all

/-- C5: the retry loop shared by the price fetch, the history fetch and the
order submission returns the first success when `k < N` leading attempts
fail, re-raises the last error when all `N` attempts fail, and the cycle
outcome then reflects the failure - a no-purchase record naming the failed
stage for the fetches, never a bought record for a failed submission. -/
theorem C5_retry_policy :
    (∀ (pre : List (Except String ℚ)) (a : ℚ) (post : List (Except String ℚ)),
        (∀ x ∈ pre, ∃ e, x = .error e) →
        retryRunList (pre ++ .ok a :: post) = some (.ok a))
    ∧ (∀ (es : List String) (e : String),
        retryRunList (A := ℚ) (es.map .error ++ [.error e]) = some (.error e))
    ∧ (∀ (i : Inputs) (e : String), i.histFetch = .error e →
        (coinexCompute i).outcome = .noPurchaseHistory
        ∧ bitfinexCompute i = .ok .noPurchaseHistory)
    ∧ (∀ (i : Inputs) (e : String) (closes : List ℚ) (eff : ℕ) (ma : ℚ),
        i.histFetch = .ok closes → indicators closes i.maPeriod = .ok (eff, ma) →
        i.priceFetch = .error e →
        (coinexCompute i).outcome = .noPurchasePrice
        ∧ bitfinexCompute i = .ok .noPurchasePrice)
    ∧ (∀ (i : Inputs) (e : String) (a : ℚ) (r : Reason) (oid : ℕ),
        i.orderResult = .error e →
        (coinexCompute i).outcome ≠ .bought a r oid) := by
  refine ⟨?_, ?_, ?_, ?_, ?_⟩
  · intro pre a post h
    cases pre with
    | nil => simp [retryRunList, retryRun_ok]
    | cons x xs =>
      obtain ⟨e, rfl⟩ := h x (List.mem_cons_self x xs)
      rw [List.cons_append]
      simp only [retryRunList]
      rw [retryRun_skip_errors a post xs e fun y hy =>
        h y (List.mem_cons_of_mem _ hy)]
  · intro es e
    cases es with
    | nil => rfl
    | cons e1 tl =>
      rw [List.map_cons, List.cons_append]
      simp only [retryRunList]
      rw [retryRun_all_errors e tl e1]
  · intro i e h
    constructor <;>
      simp [coinexCompute, coinexAfterFng, bitfinexCompute, bitfinexAfterFng, h]
  · intro i e closes eff ma h1 h2 h3
    constructor <;>
      simp [coinexCompute, coinexAfterFng, bitfinexCompute, bitfinexAfterFng,
        h1, h2, h3]
  · intro i e a r oid h hc
    have ho := coinex_bought_imp_order_ok i a r oid hc
    rw [h] at ho
    exact Except.noConfusion ho

/-- Witness for C5: two failing attempts then a success return the success;
three failing attempts return the last error; a cycle whose history fetch
exhausted its retries ends in the no-purchase-history outcome; one whose
price fetch failed ends in the no-purchase-price outcome; one whose order
submission failed is never reported as bought. -/
theorem C5_retry_policy_witness :
    retryRunList ([.error "t1", .error "t2"] ++ .ok (42 : ℚ) :: [])
      = some (.ok 42)
    ∧ retryRunList (A := ℚ) (["a", "b"].map .error ++ [.error "c"])
      = some (.error "c")
    ∧ (coinexCompute { overlapCycle with histFetch := .error "hist down" }).outcome
      = .noPurchaseHistory
    ∧ (coinexCompute { overlapCycle with priceFetch := .error "price down" }).outcome
      = .noPurchasePrice
    ∧ (coinexCompute { overlapCycle with orderResult := .error "order down" }).outcome
      ≠ .bought (2/10000) .overlap 1 := by
  refine ⟨?_, ?_, ?_, ?_, ?_⟩
  · exact C5_retry_policy.1 [.error "t1", .error "t2"] 42 []
      (by intro x hx; simp at hx; rcases hx with h | h <;> exact ⟨_, h⟩)
  · exact C5_retry_policy.2.1 ["a", "b"] "c"
  · exact (C5_retry_policy.2.2.1 _ "hist down" rfl).1
  · exact (C5_retry_policy.2.2.2.1 _ "price down" [100] 1 100 rfl
      (by norm_num [indicators, rollingMeanLast, overlapCycle]) rfl).1
  · exact C5_retry_policy.2.2.2.2 _ "order down" (2/10000) .overlap 1 rfl

/-- C6 counterexample: the history pipeline does not deduplicate by day.
A payload with two records in the same calendar day (millisecond timestamps
500 and 0, both mapping to day 0) is returned with both points, so the
returned series is not deduplicated by day as the claim states. -/
theorem C6_dedup_refuted :
    ¬ dedupedByDay (processKlines [((500 : ℤ), (1 : ℚ)), ((0 : ℤ), (2 : ℚ))]) := by
  decide

/-- C6 as amended: the history operation returns the mapped records sorted
ascending by timestamp, keeping every record (no per-day deduplication), and
a zero-record payload raises - an attempt failure the retry loop moves past,
never an empty success. -/
theorem C6_history_processing (payload : List (ℤ × ℚ)) (h : payload ≠ []) :
    fetchAttemptHist payload = .ok (processKlines payload)
    ∧ List.Sorted byTs (processKlines payload)
    ∧ (processKlines payload).length = payload.length
    ∧ fetchAttemptHist [] = .error "No historical data returned"
    ∧ (∀ rest : List (Except String (List (ℤ × ℚ))),
        retryRun (fetchAttemptHist []) (fetchAttemptHist payload :: rest)
          = .ok (processKlines payload)) := by
  have hne : payload.isEmpty = false := by
    cases payload with
    | nil => exact absurd rfl h
    | cons a l => rfl
  have hok : fetchAttemptHist payload = .ok (processKlines payload) := by
    simp [fetchAttemptHist, hne]
  refine ⟨hok, List.sorted_insertionSort byTs _, ?_, rfl, ?_⟩
  · simp [processKlines]
  · intro rest
    have hemp : fetchAttemptHist ([] : List (ℤ × ℚ))
        = .error "No historical data returned" := rfl
    rw [hemp, retryRun_error_cons, hok, retryRun_ok]

/-- Witness for C6 (amended) at the one-record payload `[(0 ms, 5)]`. -/
theorem C6_history_processing_witness :
    fetchAttemptHist [((0 : ℤ), (5 : ℚ))]
      = .ok (processKlines [((0 : ℤ), (5 : ℚ))])
    ∧ List.Sorted byTs (processKlines [((0 : ℤ), (5 : ℚ))]) := by
  have h := C6_history_processing [((0 : ℤ), (5 : ℚ))] (by simp)
  exact ⟨h.1, h.2.1⟩

/-- C7: a sentiment-fetch failure is recovered locally. Whatever the failure,
the cycle continues with the FNG value absent - the rest of the pipeline runs
exactly as the post-sentiment stages on an absent value, `buy_fng` cannot
fire, and the particular failure payload is irrelevant - in both variants. -/
theorem C7_sentiment_failure_local :
    ∀ (i : Inputs) (e : String),
      coinexCompute { i with fngFetch := .error e } = coinexAfterFng none i
      ∧ bitfinexCompute { i with fngFetch := .error e } = bitfinexAfterFng none i
      ∧ fngValueOf (.error e) = none
      ∧ (∀ t : ℚ, buyFng none t = false)
      ∧ (∀ e2 : String, coinexCompute { i with fngFetch := .error e }
          = coinexCompute { i with fngFetch := .error e2 }) := by
  intro i e
  refine ⟨?_, ?_, rfl, fun t => rfl, fun e2 => ?_⟩
  · cases i; rfl
  · cases i; rfl
  · cases i; rfl

/-- C8: every submission attempt `k` tags its request with a client-order
identifier generated from the fresh `uuid4` draw `k` made inside the loop
body, so two attempts whose (truncated) draws differ never share an
identifier. -/
theorem C8_fresh_client_ids :
    ∀ (key secret : String) (amount : ℚ) (tonce : ℕ) (uuids : ℕ → String)
      (j k : ℕ),
      (coinexAttemptRequest key secret amount tonce uuids k).clientId
        = clientIdOf uuids k
      ∧ clientIdOf uuids k = "strategy6_" ++ (uuids k).take 8
      ∧ ((uuids j).take 8 ≠ (uuids k).take 8 →
          (coinexAttemptRequest key secret amount tonce uuids j).clientId
            ≠ (coinexAttemptRequest key secret amount tonce uuids k).clientId) := by
  intro key secret amount tonce uuids j k
  refine ⟨rfl, rfl, fun hne heq => hne ?_⟩
  have hd := congrArg String.data heq
  simp only [coinexAttemptRequest, clientIdOf, String.data_append] at hd
  exact String.ext (List.append_cancel_left hd)

/-- Witness for C8: with distinct draws for attempts 0 and 1, the two
attempts carry distinct client-order identifiers. -/
theorem C8_fresh_client_ids_witness :
    (coinexAttemptRequest "k" "s" 1 7 twoAttemptDraws 0).clientId
      ≠ (coinexAttemptRequest "k" "s" 1 7 twoAttemptDraws 1).clientId :=
  (C8_fresh_client_ids "k" "s" 1 7 twoAttemptDraws 0 1).2.2 (by decide)

/-- C9: in the Bitfinex variant, a cycle that reaches the MA-only branch
raises `NameError` on the unbound `btc_amount`, `compute_buy_decision`
returns no outcome record, and `run_strategy`'s generic handler emits none
of the bought / failed-to-buy / no-purchase records the claim requires - so
the claim fails on the code. The CoinEx variant on the same cycle emits
exactly one outcome record. -/
theorem C9_outcome_record :
    bitfinexCompute maOnlyCycle = .error (.nameError "btc_amount")
    ∧ runStrategyEmits (bitfinexCompute maOnlyCycle) = none
    ∧ (coinexCompute maOnlyCycle).outcome = .bought (5/10000) .maOnly 1
    ∧ runStrategyEmits (.ok (coinexCompute maOnlyCycle).outcome)
        = some ((coinexCompute maOnlyCycle).outcome) := by
  have h1 : bitfinexCompute maOnlyCycle = .error (.nameError "btc_amount") := by
    norm_num [bitfinexCompute, bitfinexAfterFng, maOnlyCycle, fngValueOf,
      indicators, rollingMeanLast, buyFng, buyMa, overlapSignal, envFloat]
  refine ⟨h1, by rw [h1]; rfl, ?_, rfl⟩
  have hk : ¬(coinexHardKey = "" ∨ coinexHardSecret = "") := by decide
  norm_num [coinexCompute, coinexAfterFng, maOnlyCycle, fngValueOf, indicators,
    rollingMeanLast, buyFng, buyMa, overlapSignal, coinexTier, envFloat,
    orderOutcome, hk, Except.map]

/-- Any run of the CoinEx post-sentiment pipeline never takes the
missing-credentials branch and signs every submitted request with the
hardcoded literals, whatever the configured credentials. -/
theorem coinexAfterFng_creds_shape (fng : Option ℤ) (i : Inputs) :
    (coinexAfterFng fng i).outcome ≠ .noPurchaseMissingCreds
    ∧ (∀ req, (coinexAfterFng fng i).request = some req →
        req.accessId = coinexHardKey ∧ req.sigSecret = coinexHardSecret) := by
  have hk : ¬(coinexHardKey = "" ∨ coinexHardSecret = "") := by decide
  constructor
  · intro h
    simp only [coinexAfterFng] at h
    repeat' split at h
    all_goals try simp_all
    cases hres : i.orderResult <;> simp_all [orderOutcome]
  · intro req h
    simp only [coinexAfterFng] at h
    repeat' split at h
    all_goals try simp_all
    subst h
    exact ⟨rfl, rfl⟩

/-- C10: the CoinEx credentials used to sign and send the market buy are the
fixed source literals. Two runs differing only in the configured
`COINEX_API_KEY` / `COINEX_API_SECRET` produce identical cycles (identical
outcome and identical signed request), the configured credentials never
reach order submission, and the missing-credentials branch is unreachable. -/
theorem C10_hardcoded_credentials :
    (∀ (i : Inputs) (k1 s1 k2 s2 : String),
        coinexCompute { i with envCoinexApiKey := k1, envCoinexApiSecret := s1 }
          = coinexCompute { i with envCoinexApiKey := k2, envCoinexApiSecret := s2 })
    ∧ (∀ i : Inputs, (coinexCompute i).outcome ≠ .noPurchaseMissingCreds)
    ∧ (∀ (i : Inputs) (req : OrderRequest),
        (coinexCompute i).request = some req →
        req.accessId = coinexHardKey ∧ req.sigSecret = coinexHardSecret) := by
  refine ⟨?_, ?_, ?_⟩
  · intro i k1 s1 k2 s2; cases i; rfl
  · intro i
    exact (coinexAfterFng_creds_shape (fngValueOf i.fngFetch) i).1
  · intro i req h
    exact (coinexAfterFng_creds_shape (fngValueOf i.fngFetch) i).2 req h

/-- Witness for C10: the request submitted by the overlap cycle is signed
with the hardcoded literals. -/
theorem C10_hardcoded_credentials_witness :
    (coinexAttemptRequest coinexHardKey coinexHardSecret (2/10000) 7
        (fun _ => "deadbeefcafe") 0).accessId = coinexHardKey
    ∧ (coinexAttemptRequest coinexHardKey coinexHardSecret (2/10000) 7
        (fun _ => "deadbeefcafe") 0).sigSecret = coinexHardSecret := by
  have hk : ¬(coinexHardKey = "" ∨ coinexHardSecret = "") := by decide
  have hreq : (coinexCompute overlapCycle).request
      = some (coinexAttemptRequest coinexHardKey coinexHardSecret (2/10000) 7
          (fun _ => "deadbeefcafe") 0) := by
    norm_num [coinexCompute, coinexAfterFng, overlapCycle, fngValueOf,
      indicators, rollingMeanLast, buyFng, buyMa, overlapSignal, coinexTier,
      envFloat, orderOutcome, hk, Except.map, coinexAttemptRequest, clientIdOf]
  exact C10_hardcoded_credentials.2.2 overlapCycle _ hreq

end BtcBuyer
